import Mathlib

/-!
Verification of the novel-generator core (herring101/llm-novel-generator).

Shallow embedding of the Python sources:
  * `novel_generator/models/data_models.py`   (data model, plan adjustment)
  * `novel_generator/core/parser.py`          (tag extraction, response parsing)
  * `novel_generator/core/section_manager.py` (retry loop, quality gate, plan review)
  * `novel_generator/core/prompt_manager.py`  (prompt parameter assembly)
  * `novel_generator/core/story_manager.py`   (top-level generation loop)

Python strings are modelled as `String` (lists of characters), floats coming out of
the progress parser as `ℚ`, mutation as functional record update, exceptions as
`Except String`, and the LLM backend as a script (list) of call outcomes consumed
in order.  `datetime` timestamps are opaque to every claim and are omitted from the
embedded records.  Logging side effects that a claim talks about (the per-attempt
warning of the retry loop) are modelled as an accumulated list of messages; all
other logging is ignored.
-/

set_option maxHeartbeats 1000000

namespace NovelGen

/-! ### Character-list helpers

These model the Python string primitives used by `parser.py`:
`in` / `str.find` (first occurrence of a substring), slicing around that
occurrence, `str.strip`, and `re.findall` over non-overlapping blocks. -/

/-- `listStartsWith l pat` models Python `l.startswith(pat)` on characters. -/
def listStartsWith : List Char → List Char → Bool
  | _, [] => true
  | [], _ :: _ => false
  | c :: cs, p :: ps => c == p && listStartsWith cs ps

/-- First occurrence of `pat`: `splitFirst pat l = some (pre, post)` splits `l`
as `pre ++ pat ++ post` at the first occurrence of `pat` (Python `str.find`
followed by slicing before / after the found pattern); `none` when absent. -/
def splitFirst (pat : List Char) : List Char → Option (List Char × List Char)
  | [] => if listStartsWith [] pat then some ([], ([] : List Char).drop pat.length) else none
  | c :: rest =>
    if listStartsWith (c :: rest) pat then some ([], (c :: rest).drop pat.length)
    else
      match splitFirst pat rest with
      | none => none
      | some (pre, post) => some (c :: pre, post)

/-- Python `s.find(ch)` for a single character, as an optional index. -/
def findIdxChar (ch : Char) : List Char → Option Nat
  | [] => none
  | c :: rest => if c == ch then some 0 else (findIdxChar ch rest).map (· + 1)

/-- Python `str.strip()` on a character list (leading and trailing whitespace). -/
def trimL (l : List Char) : List Char :=
  ((l.dropWhile Char.isWhitespace).reverse.dropWhile Char.isWhitespace).reverse

/-- Python `str.strip()` on a `String`. -/
def strTrim (s : String) : String :=
  String.mk (trimL s.data)

/-- Python `pat in s` (substring containment). -/
def containsSub (s pat : String) : Bool :=
  (splitFirst pat.data s.data).isSome

/-- All non-overlapping `open ... close` blocks, in order: models
`re.findall(r"<tag>(.*?)</tag>", text, re.DOTALL)`.  `fuel` is an upper bound
on the number of blocks (callers pass the text length, which always suffices
because every block consumes at least one character). -/
def findAllBetween (openT closeT : List Char) : Nat → List Char → List (List Char)
  | 0, _ => []
  | fuel + 1, l =>
    match splitFirst openT l with
    | none => []
    | some (_, rest) =>
      match splitFirst closeT rest with
      | none => []
      | some (mid, after) => mid :: findAllBetween openT closeT fuel after

/-- Python `str.split("\n")` on a character list: the (non-empty) list of
newline-separated chunks, keeping empty chunks. -/
def splitLinesL : List Char → List (List Char)
  | [] => [[]]
  | '\n' :: rest => [] :: splitLinesL rest
  | c :: rest =>
    match splitLinesL rest with
    | [] => [[c]]
    | line :: ls => (c :: line) :: ls

/-- Python `s.split("\n")` on a `String`. -/
def splitNl (s : String) : List String :=
  (splitLinesL s.data).map String.mk

/-- Digits to a natural number (Python `int` of a digit run). -/
def digitsToNat (ds : List Char) : Nat :=
  ds.foldl (fun n c => n * 10 + (c.toNat - 48)) 0

/-- Scan for the first digit run: models `re.search(r"(\d+(?:\.\d+)?)", text)`
up to the integer part; returns the digit run and the remaining characters. -/
def scanNumber : List Char → Option (List Char × List Char)
  | [] => none
  | c :: rest =>
    if c.isDigit then some (c :: rest.takeWhile Char.isDigit, rest.dropWhile Char.isDigit)
    else scanNumber rest

/-- Functional update of the element at index `i` (Python `l[i].mutate(...)`). -/
def modifyIdx {α : Type} : List α → Nat → (α → α) → List α
  | [], _, _ => []
  | x :: xs, 0, f => f x :: xs
  | x :: xs, n + 1, f => x :: modifyIdx xs n f

/-! ### Data model (`models/data_models.py`)

`Progress.percentage` is a Python float; the values the program produces come
from the percentage parser and are modelled as `ℚ`.  `SectionData.progress` is
declared as `Progress` in the dataclass, but the quality gate in
`section_manager.py` explicitly tests its presence (`not section_data.progress`),
so the dynamically possible absent value is modelled as `Option Progress`.
`PlanAdjustment.timestamp` (a `datetime`) is opaque to all claims and omitted. -/

structure Progress where
  percentage : ℚ
  achieved_points : List String
  remaining_points : List String
  deriving Repr, DecidableEq

structure SectionData where
  content : String
  progress : Option Progress
  next_preview : String
  thinking : String
  deriving Repr, DecidableEq

structure Character where
  name : String
  role : String
  personality : String
  deriving Repr, DecidableEq

structure StoryBaseSettings where
  themes : List String
  characters : List Character
  world_setting : String
  tone : String
  thinking_process : String
  deriving Repr, DecidableEq

structure PlanAdjustment where
  analysis : String
  adjustments : String
  future_plans : String
  thinking_process : String
  deriving Repr, DecidableEq

structure StorySection where
  content : String
  goals : String
  adjusted_goals : List String
  deriving Repr, DecidableEq

structure StoryPlan where
  outline : String
  major_points : List String
  sections : List StorySection
  foreshadowing : List String
  thinking_process : String
  adjustments : List PlanAdjustment
  deriving Repr, DecidableEq

structure GenerationMetadata where
  status : String
  current_section : Nat
  progress : ℚ
  current_length : Nat
  error_message : Option String
  deriving Repr, DecidableEq

structure StoryContext where
  story_setting : String
  total_length : String
  base_settings : Option StoryBaseSettings
  story_plan : Option StoryPlan
  sections : List SectionData
  progress : ℚ
  current_length : Nat
  deriving Repr, DecidableEq

/-! ### `StorySection` / `StoryPlan` operations (`data_models.py` lines 91-167) -/

/-- `StorySection.set_current_goals`: `self.adjusted_goals = [new_goals] if new_goals else []`. -/
def set_current_goals (s : StorySection) (new_goals : String) : StorySection :=
  { s with adjusted_goals := if new_goals ≠ "" then [new_goals] else [] }

/-- `StorySection.get_current_goals`: `self.adjusted_goals[-1] if self.adjusted_goals else self.goals`. -/
def get_current_goals (s : StorySection) : String :=
  match s.adjusted_goals.getLast? with
  | some g => g
  | none => s.goals

/-- One step of `StoryPlan._update_major_points`: append the point unless present. -/
def insertPoint (l : List String) (point : String) : List String :=
  if point ∈ l then l else l ++ [point]

/-- `StoryPlan._update_major_points`: split the adjustment text on newlines,
strip each line, drop blank lines, and append each new point not already in
`major_points`. -/
def update_major_points (l : List String) (adjustments : String) : List String :=
  (((splitNl adjustments).map strTrim).filter (· ≠ "")).foldl insertPoint l

/-- `StoryPlan._apply_adjustment`.  `current_section_index = len(self.sections) - 1`
is Python `int` arithmetic, hence the guard `0 ≤ (length : ℤ) - 1`. -/
def apply_adjustment (p : StoryPlan) (a : PlanAdjustment) : StoryPlan :=
  let current_section_index : ℤ := (p.sections.length : ℤ) - 1
  let p1 :=
    if 0 ≤ current_section_index then
      { p with
          sections :=
            modifyIdx p.sections current_section_index.toNat
              (fun s => set_current_goals s a.future_plans) }
    else p
  if a.adjustments ≠ "" then
    { p1 with major_points := update_major_points p1.major_points a.adjustments }
  else p1

/-- `StoryPlan.add_adjustment`: append to the history, then apply. -/
def add_adjustment (p : StoryPlan) (a : PlanAdjustment) : StoryPlan :=
  apply_adjustment { p with adjustments := p.adjustments ++ [a] } a

/-- `StoryPlan.get_latest_adjustment`. -/
def get_latest_adjustment (p : StoryPlan) : Option PlanAdjustment :=
  p.adjustments.getLast?

/-! ### Response parser (`core/parser.py`)

`ResponseParser.extract_tag_content` takes the first regex match of
`<tag>\s*(.*?)\s*</tag>` (DOTALL, non-greedy) and strips it.  The leftmost match
starts at the first `<tag>` occurrence provided some `</tag>` occurs after it,
and the non-greedy group ends at the first such `</tag>`; together with the
final `.strip()` the result is the stripped text between the first opening tag
and the first closing tag after it.  The source additionally pre-checks that
both `<tag>` and `</tag>` occur somewhere in the text; when the pre-check
passes but no closing tag follows the opening tag the regex has no match and
the function returns `""`, which coincides with the nested-search below, so the
pre-check changes no result. -/

/-- `ResponseParser.extract_tag_content`. -/
def extract_tag_content (text tag : String) : String :=
  if text = "" then ""
  else
    match splitFirst ("<" ++ tag ++ ">").data text.data with
    | none => ""
    | some (_, rest) =>
      match splitFirst ("</" ++ tag ++ ">").data rest with
      | none => ""
      | some (mid, _) => String.mk (trimL mid)

/-- `ResponseParser.extract_content_tag`: tolerant extraction for the
`content` tag.  No opening tag: return the whole input.  Opening tag present:
text after it up to an explicit `</content>` if one occurs, else up to the next
`<` (`remaining_text.find('<')`), else to the end; then `.strip()`. -/
def extract_content_tag (text : String) : String :=
  if text = "" then ""
  else
    match splitFirst "<content>".data text.data with
    | none => text
    | some (_, rest) =>
      match splitFirst "</content>".data rest with
      | some (mid, _) => String.mk (trimL mid)
      | none =>
        match findIdxChar '<' rest with
        | some p => String.mk (trimL (rest.take p))
        | none => String.mk (trimL rest)

/-- Keyword fallback of `ResponseParser.extract_percentage` (applied to
`text.lower()`; `Char.toLower` only affects ASCII, like Python on these
Japanese keywords). -/
def percentageKeywordFallback (text : String) : ℚ :=
  let lt := String.mk (text.data.map Char.toLower)
  if containsSub lt "完了" ∨ containsSub lt "終了" ∨ containsSub lt "完結" then 100
  else if containsSub lt "開始" ∨ containsSub lt "始め" then 0
  else if containsSub lt "中盤" ∨ containsSub lt "半ば" then 50
  else 25

/-- `ResponseParser.extract_percentage`: first decimal number in the text
(regex `(\d+(?:\.\d+)?)`, ASCII digits), accepted when in `[0, 100]`,
otherwise the keyword fallback. -/
def extract_percentage (text : String) : ℚ :=
  match scanNumber text.data with
  | some (ds, rest) =>
    let frac : List Char :=
      match rest with
      | '.' :: r2 => r2.takeWhile Char.isDigit
      | _ => []
    let v : ℚ :=
      (digitsToNat ds : ℚ) +
        (if frac = [] then 0 else (digitsToNat frac : ℚ) / (10 : ℚ) ^ frac.length)
    if 0 ≤ v ∧ v ≤ 100 then v else percentageKeywordFallback text
  | none => percentageKeywordFallback text

/-- The defaulted `SectionData` built by the `except` branch of
`ResponseParser.parse_section_data`. -/
def default_section_data : SectionData :=
  { content := "物語は続きます。次の展開に向けて..."
    progress := some { percentage := 25
                       achieved_points := ["基本的な展開"]
                       remaining_points := ["今後の展開"] }
    next_preview := "次のセクションに続く"
    thinking := "物語の展開を考慮しています" }

/-- Newline-split / strip / drop-blank list used for achieved and remaining
points (`[p.strip() for p in s.split("\n") if p.strip()]`). -/
def splitPointLines (s : String) : List String :=
  ((splitNl s).map strTrim).filter (· ≠ "")

/-- `ResponseParser.parse_section_data`.  The arguments model the dynamically
possible `None` inputs.  The only `raise` inside the `try` block is the
invalid-response check (`None` or empty response); every other step is a total
fallback chain, so the `except` branch — returning `default_section_data` — is
reached exactly for those inputs. -/
def parse_section_data (response_text : Option String) (thinking : Option String) :
    SectionData :=
  match response_text with
  | none => default_section_data
  | some rt =>
    if rt = "" then default_section_data
    else
      let th0 := match thinking with | none => "" | some t => t
      let th1 := if th0 = "" then extract_tag_content rt "thinking" else th0
      let th2 := if th1 = "" then "物語の展開を考慮しています" else th1
      let sec0 := extract_tag_content rt "section"
      let sec := if sec0 = "" then rt else sec0
      let content0 := extract_content_tag sec
      let content1 := if content0 = "" then sec else content0
      let content := if (strTrim content1).length < 10 then "物語は続きます。次の展開に向けて..." else content1
      let progress_text := extract_tag_content sec "progress"
      let percentage := extract_percentage (extract_tag_content progress_text "percentage")
      let achieved0 := splitPointLines (extract_tag_content progress_text "achieved_points")
      let achieved := if achieved0 = [] then ["基本的な展開を達成"] else achieved0
      let remaining0 := splitPointLines (extract_tag_content progress_text "remaining_points")
      let remaining := if remaining0 = [] then ["さらなる展開"] else remaining0
      let next_preview0 := extract_tag_content sec "next_preview"
      let next_preview := if next_preview0 = "" then "次のセクションに続く" else next_preview0
      { content := content
        progress := some { percentage := percentage
                           achieved_points := achieved
                           remaining_points := remaining }
        next_preview := next_preview
        thinking := if th2 = "" then "物語の展開を考慮しています" else th2 }

/-- `ResponseParser.parse_characters`: every `<character>...</character>` block. -/
def parse_characters (text : String) : List Character :=
  (findAllBetween "<character>".data "</character>".data (text.data.length + 1) text.data).map
    (fun block =>
      let b := String.mk block
      { name := extract_tag_content b "name"
        role := extract_tag_content b "role"
        personality := extract_tag_content b "personality" })

/-- `ResponseParser.parse_base_settings`. -/
def parse_base_settings (response_text : String) : StoryBaseSettings :=
  let story_base := extract_tag_content response_text "story_base"
  let thinking := extract_tag_content response_text "thinking"
  { themes := splitNl (extract_tag_content story_base "themes")
    characters := parse_characters story_base
    world_setting := extract_tag_content story_base "world_setting"
    tone := extract_tag_content story_base "tone"
    thinking_process := thinking }

/-- `ResponseParser._parse_major_points`: all `<point>` blocks, stripped. -/
def parse_major_points (text : String) : List String :=
  let mp := extract_tag_content text "major_points"
  (findAllBetween "<point>".data "</point>".data (mp.data.length + 1) mp.data).map
    (fun b => String.mk (trimL b))

/-- `ResponseParser._parse_planned_sections`: all `<section>` blocks. -/
def parse_planned_sections (text : String) : List StorySection :=
  (findAllBetween "<section>".data "</section>".data (text.data.length + 1) text.data).map
    (fun block =>
      let b := String.mk block
      { content := extract_tag_content b "content"
        goals := extract_tag_content b "goals"
        adjusted_goals := [] })

/-- `ResponseParser._parse_foreshadowing`: all `<element>` blocks, stripped. -/
def parse_foreshadowing (text : String) : List String :=
  let fs := extract_tag_content text "foreshadowing"
  (findAllBetween "<element>".data "</element>".data (fs.data.length + 1) fs.data).map
    (fun b => String.mk (trimL b))

/-- `ResponseParser.parse_story_plan`. -/
def parse_story_plan (response_text : String) : StoryPlan :=
  let story_plan := extract_tag_content response_text "story_plan"
  let thinking := extract_tag_content response_text "thinking"
  { outline := extract_tag_content story_plan "outline"
    major_points := parse_major_points story_plan
    sections := parse_planned_sections story_plan
    foreshadowing := parse_foreshadowing story_plan
    thinking_process := thinking
    adjustments := [] }

/-- Result of `ResponseParser.parse_plan_review`. -/
structure PlanReviewResult where
  analysis : String
  adjustments : String
  future_plans : String
  thinking_process : String
  deriving Repr, DecidableEq

/-- `ResponseParser.parse_plan_review`: `plan_review` block (whole response as
fallback), three fields with placeholder defaults, thinking from the full
response.  Nothing inside the `try` raises, so the `except` branch is dead. -/
def parse_plan_review (response_text : String) : PlanReviewResult :=
  let block0 := extract_tag_content response_text "plan_review"
  let block := if block0 = "" then response_text else block0
  let analysis := extract_tag_content block "analysis"
  let adjustments := extract_tag_content block "adjustments"
  let future_plans := extract_tag_content block "future_plans"
  let thinking := extract_tag_content response_text "thinking"
  { analysis := if analysis = "" then "分析情報なし" else analysis
    adjustments := if adjustments = "" then "調整不要" else adjustments
    future_plans := if future_plans = "" then "計画の継続" else future_plans
    thinking_process := if thinking = "" then "思考プロセスなし" else thinking }

/-! ### Section manager (`core/section_manager.py`)

The LLM backend (`self.llm.generate`) is modelled as a script of call outcomes
(`Service`) consumed in order; an exhausted script models a failing service
call.  Exceptions are `Except.error` carrying the Python exception message. -/

instance instDecEqExcept {ε α : Type} [DecidableEq ε] [DecidableEq α] :
    DecidableEq (Except ε α) := fun x y =>
  match x, y with
  | Except.ok a, Except.ok b =>
    if h : a = b then isTrue (by rw [h]) else isFalse (by intro he; injection he; contradiction)
  | Except.error a, Except.error b =>
    if h : a = b then isTrue (by rw [h]) else isFalse (by intro he; injection he; contradiction)
  | Except.ok _, Except.error _ => isFalse (by intro he; injection he)
  | Except.error _, Except.ok _ => isFalse (by intro he; injection he)

/-- A script of LLM-call outcomes, consumed front to back. -/
abbrev Service := List (Except String String)

/-- One `self.llm.generate(prompt)` call against the scripted service. -/
def svcPop : Service → Except String String × Service
  | [] => (Except.error "LLMサービスからの応答がありません", [])
  | r :: rest => (r, rest)

/-- `SectionManager._quality_check`.  The first Python condition
(`not content or not progress or not next_preview`) is falsity of any of the
three; a present `Progress` dataclass instance is always truthy. -/
def quality_check (d : SectionData) : Bool :=
  match d.progress with
  | none => false
  | some p =>
    if d.content = "" ∨ d.next_preview = "" then false
    else if d.content.length < 1000 then false
    else if p.percentage < 0 ∨ 100 < p.percentage then false
    else true

/-- Lines 60-61 of `generate_section`: extract the thinking block from the raw
response, then parse the section data from response and thinking. -/
def parseResp (response : String) : SectionData :=
  parse_section_data (some response) (some (extract_tag_content response "thinking"))

/-- The body of one attempt of the retry loop (lines 53-64): a service failure
propagates as the attempt's exception; otherwise the response is parsed and the
quality gate failure raises `ValueError("生成されたセクションが品質基準を満たしていません")`. -/
def attemptOutcome (r : Except String String) : Except String SectionData :=
  match r with
  | Except.error e => Except.error e
  | Except.ok response =>
    if quality_check (parseResp response) then Except.ok (parseResp response)
    else Except.error "生成されたセクションが品質基準を満たしていません"

/-- Output of the retry loop: the returned value or raised error, the warning
log written for each failed attempt (in order), the number of attempts
performed, and the rest of the service script. -/
structure GenLoopOut where
  result : Except String SectionData
  logs : List String
  attempts : Nat
  svc : Service
  deriving Repr, DecidableEq

/-- `logger.warning` message of a failed attempt (attempt index `k` is 0-based,
the message prints `attempt + 1`). -/
def attemptWarnMsg (sc k mr : Nat) (e : String) : String :=
  "セクション " ++ toString sc ++ " の生成が失敗（試行 " ++ toString (k + 1) ++ "/" ++
    toString mr ++ "）: " ++ e

/-- The `ValueError` message raised after all attempts failed; `str(None)` is
`"None"` when no attempt ran. -/
def exhaustMsg (sc mr : Nat) (lastError : Option String) : String :=
  "セクション " ++ toString sc ++ " の生成に失敗しました。" ++ toString mr ++
    "回の試行全てが失敗: " ++ (match lastError with | none => "None" | some e => e)

/-- The retry loop of `SectionManager.generate_section`
(`for attempt in range(max_retries)`), as recursion on the remaining attempt
count with `k` the 0-based attempt index; called with `remaining = mr`, `k = 0`,
`last_error = None`, no logs. -/
def genLoopS (sc mr : Nat) : Nat → Nat → Option String → List String → Service → GenLoopOut
  | 0, k, lastErr, logs, svc => ⟨Except.error (exhaustMsg sc mr lastErr), logs, k, svc⟩
  | remaining + 1, k, _lastErr, logs, svc =>
    match attemptOutcome (svcPop svc).1 with
    | Except.ok d => ⟨Except.ok d, logs, k + 1, (svcPop svc).2⟩
    | Except.error e =>
      genLoopS sc mr remaining (k + 1) (some e) (logs ++ [attemptWarnMsg sc k mr e])
        (svcPop svc).2

/-- `SectionManager._review_plan`: one service call, tolerant parse of the
review, build the adjustment (timestamp opaque), apply it to the plan.  Any
exception is re-raised; with a total parser the only failure source is the
service call itself. -/
def review_plan (svc : Service) (plan : StoryPlan) : Except String StoryPlan × Service :=
  match svcPop svc with
  | (Except.error e, svc1) => (Except.error e, svc1)
  | (Except.ok response, svc1) =>
    let pr := parse_plan_review response
    (Except.ok (add_adjustment plan
        { analysis := pr.analysis
          adjustments := pr.adjustments
          future_plans := pr.future_plans
          thinking_process := pr.thinking_process }), svc1)

/-- Output of `generate_section`: result, remaining service script, the plan
(adjusted when a review ran and succeeded), whether the review step was
entered, attempts performed, and the per-attempt warning logs. -/
structure GenSectionOut where
  result : Except String SectionData
  svc : Service
  plan : StoryPlan
  reviewed : Bool
  attempts : Nat
  logs : List String
  deriving Repr, DecidableEq

/-- `SectionManager.generate_section`: review when `section_count % 5 == 0 and
section_count > 0` (a review exception propagates before any attempt), then the
retry loop with `max_retries` attempts. -/
def generate_section (sc mr : Nat) (svc : Service) (plan : StoryPlan) : GenSectionOut :=
  if sc % 5 = 0 ∧ 0 < sc then
    match review_plan svc plan with
    | (Except.error e, svc1) => ⟨Except.error e, svc1, plan, true, 0, []⟩
    | (Except.ok plan1, svc1) =>
      let out := genLoopS sc mr mr 0 none [] svc1
      ⟨out.result, out.svc, plan1, true, out.attempts, out.logs⟩
  else
    let out := genLoopS sc mr mr 0 none [] svc
    ⟨out.result, out.svc, plan, false, out.attempts, out.logs⟩

/-! ### Prompt manager (`core/prompt_manager.py`)

Only the parameter assembly is embedded; the final `str.format` substitution
into the fixed templates and the JSON serialization of base settings / plan are
opaque to every claim.  The section-generation prompt receives the parameter
mapping built at lines 146-182; the plan-review prompt builds the `length_info`
block at lines 222-233. -/

/-- The `adjustment_info` f-string block of `get_section_generation_prompt`
(empty when no adjustment exists). -/
def adjustment_info_of (p : StoryPlan) : String :=
  match get_latest_adjustment p with
  | none => ""
  | some a =>
    "\n    直近の計画調整:\n    - 分析: " ++ a.analysis ++ "\n    - 調整内容: " ++
      a.adjustments ++ "\n    - 今後の展開方針: " ++ a.future_plans ++ "\n    "

/-- The computed parameters of the section-generation prompt (`params` dict,
lines 174-182; the serialized `base_settings` / `story_plan` JSON strings are
omitted as opaque). -/
structure SectionPromptParams where
  current_content : String
  section_number : Nat
  current_length : Nat
  total_length : String
  plan_adjustments : String
  deriving Repr, DecidableEq

/-- `PromptManager.get_section_generation_prompt`, parameter assembly.
`current_length = sum(len(section.content) for section in story_context.sections)`. -/
def get_section_generation_prompt_params (ctx : StoryContext) (section_count : Nat) :
    SectionPromptParams :=
  { current_content := String.intercalate "\n\n" (ctx.sections.map (fun s => s.content))
    section_number := section_count
    current_length := (ctx.sections.map (fun s => s.content.length)).sum
    total_length := ctx.total_length
    plan_adjustments :=
      match ctx.story_plan with
      | some p => adjustment_info_of p
      | none => "" }

/-- The `length_info` block of the plan-review prompt. -/
structure LengthInfo where
  current_length : Nat
  total_length_setting : String
  sections_completed : Nat
  average_section_length : ℚ
  deriving Repr, DecidableEq

/-- `PromptManager.get_plan_review_prompt`, `length_info` assembly (lines
222-233): it reads `story_context.current_length`, the stored context field,
not a sum over the generated sections. -/
def plan_review_length_info (ctx : StoryContext) : LengthInfo :=
  { current_length := ctx.current_length
    total_length_setting := ctx.total_length
    sections_completed := ctx.sections.length
    average_section_length :=
      if ctx.sections.length ≠ 0 then (ctx.current_length : ℚ) / (ctx.sections.length : ℚ)
      else 0 }

/-! ### Story manager (`core/story_manager.py`)

`generate_full_story` with the scripted service.  The narrative file content is
the accumulated `story` string (initialized by `_initialize_files` to the
header); `_save_metadata` snapshots accumulate in order, each carrying
`get_current_length()` (the sum of generated section lengths). -/

/-- Result of a `generate_full_story` run: the returned narrative text or the
propagated exception, the final context, the metadata snapshots in write
order, and the rest of the service script. -/
structure RunResult where
  story : Except String String
  ctx : StoryContext
  metadata : List GenerationMetadata
  svc : Service
  deriving Repr, DecidableEq

/-- `StoryManager.get_current_length`. -/
def get_current_length (ctx : StoryContext) : Nat :=
  (ctx.sections.map (fun s => s.content.length)).sum

/-- The `while section_count < max_sections` loop of `generate_full_story`
(lines 163-213), as recursion on the remaining iteration count with `sc` the
completed-section counter.  An absent `story_plan` (unreachable after
initialization) models the Python `AttributeError` the surrounding `except`
would catch. -/
def storyLoop : Nat → Nat → Service → StoryContext → List GenerationMetadata → String → RunResult
  | 0, _, svc, ctx, meta, story => ⟨Except.ok story, ctx, meta, svc⟩
  | remaining + 1, sc, svc, ctx, meta, story =>
    match ctx.story_plan with
    | none =>
      ⟨Except.error "story_plan が未設定です", ctx,
        meta ++ [⟨"error", sc + 1, 0, get_current_length ctx, some "story_plan が未設定です"⟩], svc⟩
    | some plan =>
      let g := generate_section (sc + 1) 3 svc plan
      let ctx1 := { ctx with story_plan := some g.plan }
      match g.result with
      | Except.error e =>
        ⟨Except.error e, ctx1,
          meta ++ [⟨"error", sc + 1, 0, get_current_length ctx1, some e⟩], g.svc⟩
      | Except.ok d =>
        let ctx2 := { ctx1 with sections := ctx1.sections ++ [d] }
        let story1 := story ++ strTrim d.content ++ "\n\n"
        match d.progress with
        | none =>
          ⟨Except.error "progress が未設定です", ctx2,
            meta ++ [⟨"error", sc + 1, 0, get_current_length ctx2, some "progress が未設定です"⟩],
            g.svc⟩
        | some p =>
          let meta1 := meta ++ [⟨"section_generated", sc + 1, p.percentage,
            get_current_length ctx2, none⟩]
          if 100 ≤ p.percentage then
            ⟨Except.ok story1, ctx2,
              meta1 ++ [⟨"completed", sc + 1, 100, get_current_length ctx2, none⟩], g.svc⟩
          else storyLoop remaining (sc + 1) g.svc ctx2 meta1 story1

/-- The narrative file header written by `_initialize_files`. -/
def storyHeader : String := "=== 物語 ===\n\n"

/-- `StoryManager.generate_full_story` (with `initialize_story` inlined, as in
the source flow): reset the context, generate base settings then the plan (one
service call each, failures propagate), write the "initialized" snapshot, then
run the section loop.  The metadata list starts with the snapshot written by
construction of the manager. -/
def generate_full_story (max_sections : Nat) (total_length story_setting : String)
    (svc : Service) : RunResult :=
  let ctx0 : StoryContext :=
    { story_setting := story_setting, total_length := total_length, base_settings := none
      story_plan := none, sections := [], progress := 0, current_length := 0 }
  let meta0 : List GenerationMetadata := [⟨"initialized", 0, 0, 0, none⟩]
  match svcPop svc with
  | (Except.error e, svc1) => ⟨Except.error e, ctx0, meta0, svc1⟩
  | (Except.ok resp1, svc1) =>
    let bs := parse_base_settings resp1
    match svcPop svc1 with
    | (Except.error e, svc2) => ⟨Except.error e, { ctx0 with base_settings := some bs }, meta0, svc2⟩
    | (Except.ok resp2, svc2) =>
      let plan := parse_story_plan resp2
      let ctx1 := { ctx0 with base_settings := some bs, story_plan := some plan }
      let meta1 := meta0 ++ [⟨"initialized", 0, 0, 0, none⟩]
      storyLoop max_sections 0 svc2 ctx1 meta1 storyHeader

theorem modifyIdx_length {α : Type} (f : α → α) :
    ∀ (l : List α) (i : Nat), (modifyIdx l i f).length = l.length
  | [], _ => rfl
  | _ :: _, 0 => by simp [modifyIdx]
  | x :: xs, n + 1 => by simp [modifyIdx, modifyIdx_length f xs n]

theorem modifyIdx_getLast? {α : Type} (f : α → α) :
    ∀ (l : List α), (modifyIdx l (l.length - 1) f).getLast? = l.getLast?.map f
  | [] => rfl
  | [x] => rfl
  | x :: y :: t => by
    have ih := modifyIdx_getLast? f (y :: t)
    have h1 : modifyIdx (x :: y :: t) ((x :: y :: t).length - 1) f
        = x :: modifyIdx (y :: t) ((y :: t).length - 1) f := by
      simp [modifyIdx]
    rw [h1]
    cases hm : modifyIdx (y :: t) ((y :: t).length - 1) f with
    | nil =>
      exfalso
      have := congrArg List.length hm
      simp [modifyIdx_length] at this
    | cons m ms =>
      rw [List.getLast?_cons_cons, ← hm, ih, List.getLast?_cons_cons]

theorem add_adjustment_adjustments (p : StoryPlan) (a : PlanAdjustment) :
    (add_adjustment p a).adjustments = p.adjustments ++ [a] := by
  unfold add_adjustment apply_adjustment
  dsimp only
  split <;> split <;> rfl

theorem add_adjustment_sections (p : StoryPlan) (a : PlanAdjustment) :
    (add_adjustment p a).sections =
      if p.sections = [] then p.sections
      else modifyIdx p.sections (p.sections.length - 1)
        (fun s => set_current_goals s a.future_plans) := by
  unfold add_adjustment apply_adjustment
  dsimp only
  by_cases hs : p.sections = []
  · have hguard : ¬ (0 : ℤ) ≤ (p.sections.length : ℤ) - 1 := by
      rw [hs]
      simp
    simp only [if_neg hguard, if_pos hs]
    split <;> rfl
  · have hlen : 1 ≤ p.sections.length := List.length_pos.mpr hs
    have hguard : (0 : ℤ) ≤ (p.sections.length : ℤ) - 1 := by omega
    have harith : (((p.sections.length : ℤ) - 1)).toNat = p.sections.length - 1 := by omega
    simp only [if_pos hguard, if_neg hs, harith]
    split <;> rfl

theorem add_adjustment_major_points (p : StoryPlan) (a : PlanAdjustment) :
    (add_adjustment p a).major_points = update_major_points p.major_points a.adjustments := by
  unfold add_adjustment apply_adjustment
  dsimp only
  by_cases ha : a.adjustments = ""
  · rw [if_neg (fun hne => hne ha), ha]
    have hempty : update_major_points p.major_points "" = p.major_points := rfl
    rw [hempty]
    split <;> rfl
  · rw [if_pos ha]
    split <;> rfl

theorem get_set_current_goals (s : StorySection) (g : String) :
    get_current_goals (set_current_goals s g) = if g = "" then s.goals else g := by
  by_cases h : g = "" <;> simp [set_current_goals, get_current_goals, h]

theorem set_current_goals_goals (s : StorySection) (g : String) :
    (set_current_goals s g).goals = s.goals := rfl

theorem add_adjustment_getLast_section (p : StoryPlan) (a : PlanAdjustment)
    (s : StorySection) (h : p.sections.getLast? = some s) :
    (add_adjustment p a).sections.getLast? = some (set_current_goals s a.future_plans) := by
  have hne : p.sections ≠ [] := by
    intro hnil
    rw [hnil] at h
    exact Option.noConfusion h
  rw [add_adjustment_sections, if_neg hne, modifyIdx_getLast?, h, Option.map_some']

/-! ## Helper lemmas: `update_major_points` -/

theorem mem_insertPoint_left {x y : String} {l : List String} (h : x ∈ l) :
    x ∈ insertPoint l y := by
  unfold insertPoint
  split
  · exact h
  · exact List.mem_append_left _ h

theorem self_mem_insertPoint (y : String) (l : List String) : y ∈ insertPoint l y := by
  unfold insertPoint
  split
  · assumption
  · exact List.mem_append_right _ (List.mem_singleton.mpr rfl)

theorem mem_foldl_insertPoint {x : String} :
    ∀ (pts : List String) (l : List String), x ∈ l → x ∈ pts.foldl insertPoint l
  | [], _, h => h
  | _ :: pts', l, h => mem_foldl_insertPoint pts' (insertPoint l _) (mem_insertPoint_left h)

theorem all_mem_foldl_insertPoint {x : String} :
    ∀ (pts : List String) (l : List String), x ∈ pts → x ∈ pts.foldl insertPoint l
  | [], _, h => absurd h (List.not_mem_nil x)
  | pt :: pts', l, h => by
    rcases List.mem_cons.mp h with h1 | h2
    · subst h1
      exact mem_foldl_insertPoint pts' _ (self_mem_insertPoint x l)
    · exact all_mem_foldl_insertPoint pts' _ h2

theorem foldl_insertPoint_of_all_mem :
    ∀ (pts : List String) (l : List String), (∀ x ∈ pts, x ∈ l) → pts.foldl insertPoint l = l
  | [], _, _ => rfl
  | pt :: pts', l, h => by
    have h1 : insertPoint l pt = l := by
      unfold insertPoint
      rw [if_pos (h pt (List.mem_cons_self pt pts'))]
    simp only [List.foldl_cons, h1]
    exact foldl_insertPoint_of_all_mem pts' l (fun x hx => h x (List.mem_cons_of_mem _ hx))

theorem insertPoint_append (l : List String) (y : String) :
    ∃ t, insertPoint l y = l ++ t := by
  unfold insertPoint
  split
  · exact ⟨[], by simp⟩
  · exact ⟨[y], rfl⟩

theorem foldl_insertPoint_append :
    ∀ (pts : List String) (l : List String), ∃ t, pts.foldl insertPoint l = l ++ t
  | [], l => ⟨[], by simp⟩
  | pt :: pts', l => by
    obtain ⟨t0, h0⟩ := insertPoint_append l pt
    obtain ⟨t1, h1⟩ := foldl_insertPoint_append pts' (insertPoint l pt)
    refine ⟨t0 ++ t1, ?_⟩
    rw [List.foldl_cons, h1, h0, List.append_assoc]

theorem update_major_points_idem (l : List String) (s : String) :
    update_major_points (update_major_points l s) s = update_major_points l s := by
  unfold update_major_points
  exact foldl_insertPoint_of_all_mem _ _ (fun x hx => all_mem_foldl_insertPoint _ _ hx)

theorem update_major_points_append (l : List String) (s : String) :
    ∃ t, update_major_points l s = l ++ t :=
  foldl_insertPoint_append _ _

/-! ## C1 / C6 / C10 -/

/-- C1 (corrected): for a plan with at least one section, a sequence of
adjustments is appended in order to the history, and the last section carries
at most the single most recent override: its `adjusted_goals` is `[future_plans]`
of the most recent adjustment when that text is non-empty, and `[]` (falling
back to the original goals) when it is empty; `get_current_goals` therefore
returns the most recent non-degenerate override, or the original goals. -/
theorem add_adjustment_overrides_current_goal (p : StoryPlan) (as : List PlanAdjustment)
    (s0 : StorySection) (hs0 : p.sections.getLast? = some s0) :
    (as.foldl add_adjustment p).adjustments = p.adjustments ++ as ∧
    ∃ s1, (as.foldl add_adjustment p).sections.getLast? = some s1 ∧
      s1.goals = s0.goals ∧
      s1.adjusted_goals =
        (match as.getLast? with
         | none => s0.adjusted_goals
         | some a => if a.future_plans = "" then [] else [a.future_plans]) ∧
      get_current_goals s1 =
        (match as.getLast? with
         | none => get_current_goals s0
         | some a => if a.future_plans = "" then s0.goals else a.future_plans) := by
  induction as using List.reverseRecOn with
  | nil =>
    refine ⟨by simp, s0, hs0, rfl, rfl, rfl⟩
  | append_singleton as a ih =>
    obtain ⟨hadj, s1, hlast, hgoals, hadjusted, _⟩ := ih
    rw [List.foldl_append]
    simp only [List.foldl_cons, List.foldl_nil]
    refine ⟨?_, set_current_goals s1 a.future_plans,
      add_adjustment_getLast_section _ a s1 hlast, ?_, ?_, ?_⟩
    · rw [add_adjustment_adjustments, hadj, List.append_assoc]
    · rw [set_current_goals_goals, hgoals]
    · simp only [List.getLast?_concat]
      by_cases h : a.future_plans = "" <;> simp [set_current_goals, h]
    · simp only [List.getLast?_concat]
      rw [get_set_current_goals, hgoals]

/-- C1 witness. -/
theorem add_adjustment_overrides_current_goal_witness :
    let p : StoryPlan := ⟨"o", [], [⟨"c", "G", []⟩], [], "tp", []⟩
    let a1 : PlanAdjustment := ⟨"an1", "", "F1", "t1"⟩
    let a2 : PlanAdjustment := ⟨"an2", "", "F2", "t2"⟩
    ([a1, a2].foldl add_adjustment p).adjustments = p.adjustments ++ [a1, a2] ∧
    ∃ s1, ([a1, a2].foldl add_adjustment p).sections.getLast? = some s1 ∧
      s1.goals = "G" ∧
      s1.adjusted_goals =
        (match [a1, a2].getLast? with
         | none => ([] : List String)
         | some a => if a.future_plans = "" then [] else [a.future_plans]) ∧
      get_current_goals s1 =
        (match [a1, a2].getLast? with
         | none => get_current_goals ⟨"c", "G", []⟩
         | some a => if a.future_plans = "" then "G" else a.future_plans) := by
  exact add_adjustment_overrides_current_goal _ [⟨"an1", "", "F1", "t1"⟩, ⟨"an2", "", "F2", "t2"⟩]
    ⟨"c", "G", []⟩ rfl

/-- C1 counterexample: an adjustment whose `future_plans` is the empty string
clears the override, so `get_current_goals` returns the original goals `"G"`,
not the future-plans text of the most recent adjustment (which is `""`). -/
theorem add_adjustment_empty_future_plans_counterexample :
    (add_adjustment ⟨"o", [], [⟨"c", "G", []⟩], [], "tp", []⟩ ⟨"an", "x", "", "t"⟩).sections.map
        get_current_goals = ["G"] ∧
    (PlanAdjustment.mk "an" "x" "" "t").future_plans ≠ "G" := by
  constructor
  · decide
  · decide

/-- C6 (confirmed): adding the same adjustment twice adds no duplicate entries
to `major_points`, and `add_adjustment` only ever appends to `major_points`
(existing entries are neither removed nor reordered). -/
theorem add_adjustment_major_points_idem_and_monotone :
    (∀ (p : StoryPlan) (a : PlanAdjustment),
      (add_adjustment (add_adjustment p a) a).major_points = (add_adjustment p a).major_points) ∧
    (∀ (p : StoryPlan) (a : PlanAdjustment),
      ∃ t, (add_adjustment p a).major_points = p.major_points ++ t) := by
  constructor
  · intro p a
    rw [add_adjustment_major_points, add_adjustment_major_points, update_major_points_idem]
  · intro p a
    rw [add_adjustment_major_points]
    exact update_major_points_append _ _

/-- C10 (confirmed): on a plan with no sections, `add_adjustment` is total (the
out-of-bounds index branch is guarded by `current_section_index >= 0`), still
appends to the history and still applies the major-points update, while the
sections list stays empty. -/
theorem add_adjustment_empty_sections (p : StoryPlan) (a : PlanAdjustment)
    (h : p.sections = []) :
    (add_adjustment p a).sections = [] ∧
    (add_adjustment p a).adjustments = p.adjustments ++ [a] ∧
    (add_adjustment p a).major_points = update_major_points p.major_points a.adjustments := by
  refine ⟨?_, add_adjustment_adjustments p a, add_adjustment_major_points p a⟩
  rw [add_adjustment_sections, if_pos h, h]

/-- C10 witness. -/
theorem add_adjustment_empty_sections_witness :
    (add_adjustment ⟨"o", ["m"], [], [], "tp", []⟩ ⟨"an", "x\n\nm", "F", "t"⟩).sections = [] ∧
    (add_adjustment ⟨"o", ["m"], [], [], "tp", []⟩ ⟨"an", "x\n\nm", "F", "t"⟩).adjustments =
      [] ++ [⟨"an", "x\n\nm", "F", "t"⟩] ∧
    (add_adjustment ⟨"o", ["m"], [], [], "tp", []⟩ ⟨"an", "x\n\nm", "F", "t"⟩).major_points =
      update_major_points ["m"] "x\n\nm" :=
  add_adjustment_empty_sections ⟨"o", ["m"], [], [], "tp", []⟩ ⟨"an", "x\n\nm", "F", "t"⟩ rfl

/-! ## C3 / C4 -/

/-- C3 (confirmed): the quality gate accepts exactly when the content is
non-empty, the progress object is present, the next-preview is non-empty, the
content has at least 1000 characters and the percentage lies in `[0, 100]`;
999-character content is rejected, 1000-character content accepted; inside
`generate_section` a rejection becomes the attempt's validation error (which
the retry loop catches like any attempt exception). -/
theorem quality_check_acceptance :
    (∀ (c np th : String) (p : Progress),
      quality_check ⟨c, some p, np, th⟩ = true ↔
        (c ≠ "" ∧ np ≠ "" ∧ 1000 ≤ c.length ∧ 0 ≤ p.percentage ∧ p.percentage ≤ 100)) ∧
    (∀ (c np th : String), quality_check ⟨c, none, np, th⟩ = false) ∧
    quality_check ⟨String.mk (List.replicate 999 'a'), some ⟨50, ["x"], ["y"]⟩, "続き", "t"⟩
      = false ∧
    quality_check ⟨String.mk (List.replicate 1000 'a'), some ⟨50, ["x"], ["y"]⟩, "続き", "t"⟩
      = true ∧
    (∀ response, quality_check (parseResp response) = false →
      attemptOutcome (Except.ok response) =
        Except.error "生成されたセクションが品質基準を満たしていません") := by
  have main : ∀ (c np th : String) (p : Progress),
      quality_check ⟨c, some p, np, th⟩ = true ↔
        (c ≠ "" ∧ np ≠ "" ∧ 1000 ≤ c.length ∧ 0 ≤ p.percentage ∧ p.percentage ≤ 100) := by
    intro c np th p
    simp only [quality_check]
    split_ifs with h1 h2 h3
    · simp only [Bool.false_eq_true, false_iff]
      rintro ⟨hc, hnp, -, -, -⟩
      rcases h1 with h | h
      exacts [hc h, hnp h]
    · simp only [Bool.false_eq_true, false_iff]
      rintro ⟨-, -, hlen, -, -⟩
      omega
    · simp only [Bool.false_eq_true, false_iff]
      rintro ⟨-, -, -, hp0, hp1⟩
      rcases h3 with h | h
      · exact absurd hp0 (not_le.mpr h)
      · exact absurd hp1 (not_le.mpr h)
    · simp only [true_iff]
      rw [not_or] at h1 h3
      exact ⟨h1.1, h1.2, by omega, le_of_not_lt h3.1, le_of_not_lt h3.2⟩
  refine ⟨main, fun c np th => rfl, ?_, ?_, ?_⟩
  · cases hq : quality_check ⟨String.mk (List.replicate 999 'a'), some ⟨50, ["x"], ["y"]⟩,
        "続き", "t"⟩ with
    | false => rfl
    | true =>
      obtain ⟨-, -, hlen, -, -⟩ := (main _ _ _ _).mp hq
      rw [show (String.mk (List.replicate 999 'a')).length = (List.replicate 999 'a').length
        from rfl, List.length_replicate] at hlen
      omega
  · refine (main _ _ _ _).mpr ⟨?_, by decide, ?_, by norm_num, by norm_num⟩
    · intro h
      have hd := congrArg String.data h
      rw [show (String.mk (List.replicate 1000 'a')).data = List.replicate 1000 'a' from rfl,
        show ("" : String).data = [] from rfl, List.replicate_eq_nil_iff] at hd
      omega
    · rw [show (String.mk (List.replicate 1000 'a')).length = (List.replicate 1000 'a').length
        from rfl, List.length_replicate]
  · intro response h
    simp [attemptOutcome, h]

/-- C3 witness. -/
theorem quality_check_acceptance_witness :
    quality_check (parseResp "x") = false ∧
    attemptOutcome (Except.ok "x") =
      Except.error "生成されたセクションが品質基準を満たしていません" := by
  have h : quality_check (parseResp "x") = false := by decide
  exact ⟨h, quality_check_acceptance.2.2.2.2 "x" h⟩

/-- C4 (confirmed): the parser is a total function; the exception path (an
absent or empty response — the only `raise` inside the `try`) returns the
fully-defaulted `SectionData`, whose fields are percentage 25, exactly one
default achieved point, exactly one default remaining point, and the default
preview, thinking and content strings. -/
theorem parse_section_data_total_default :
    (∀ t : Option String, parse_section_data none t = default_section_data) ∧
    (∀ t : Option String, parse_section_data (some "") t = default_section_data) ∧
    default_section_data.content = "物語は続きます。次の展開に向けて..." ∧
    default_section_data.progress = some ⟨25, ["基本的な展開"], ["今後の展開"]⟩ ∧
    default_section_data.next_preview = "次のセクションに続く" ∧
    default_section_data.thinking = "物語の展開を考慮しています" :=
  ⟨fun _ => rfl, fun _ => by simp [parse_section_data], rfl, rfl, rfl, rfl⟩

/-! ## C2: retry-loop exhaustion -/

theorem splitFirst_nil_eq (pat : List Char) :
    splitFirst pat [] =
      if listStartsWith [] pat = true then some ([], ([] : List Char).drop pat.length)
      else none := rfl

theorem splitFirst_cons_eq (pat : List Char) (c : Char) (l : List Char) :
    splitFirst pat (c :: l) =
      if listStartsWith (c :: l) pat = true then some ([], (c :: l).drop pat.length)
      else
        match splitFirst pat l with
        | none => none
        | some (pre, post) => some (c :: pre, post) := rfl

theorem splitFirst_cons_of_not_startsWith {pat : List Char} {c : Char} {l : List Char}
    (h : listStartsWith (c :: l) pat = false) :
    splitFirst pat (c :: l) = (splitFirst pat l).map (fun pr => (c :: pr.1, pr.2)) := by
  cases hs : splitFirst pat l with
  | none =>
    rw [splitFirst_cons_eq, if_neg (by simp [h]), hs]
    rfl
  | some pr =>
    cases pr
    rw [splitFirst_cons_eq, if_neg (by simp [h]), hs]
    rfl

theorem listStartsWith_eq_of_take_eq :
    ∀ (pat x y : List Char), x.take pat.length = y.take pat.length →
      listStartsWith x pat = listStartsWith y pat
  | [], x, y, _ => by cases x <;> cases y <;> rfl
  | p :: ps, [], y, h => by
    have : y.take (ps.length + 1) = [] := by simpa using h.symm
    have hy : y = [] := by
      cases y with
      | nil => rfl
      | cons b bs => simp [List.take] at this
    rw [hy]
  | p :: ps, a :: xs, y, h => by
    cases y with
    | nil => simp [List.take] at h
    | cons b bs =>
      simp only [List.length_cons, List.take, List.cons.injEq] at h
      obtain ⟨hab, ht⟩ := h
      simp only [listStartsWith, hab]
      rw [listStartsWith_eq_of_take_eq ps xs bs ht]

theorem startsWith_take_shift (pat s z z' : List Char)
    (h : listStartsWith (s ++ z) pat = false) (hz : z.take pat.length = z'.take pat.length) :
    listStartsWith (s ++ z') pat = false := by
  rw [← h]
  apply listStartsWith_eq_of_take_eq
  rw [List.take_append_eq_append_take, List.take_append_eq_append_take]
  have e1 : z'.take (pat.length - s.length) = (z'.take pat.length).take (pat.length - s.length) := by
    rw [List.take_take, Nat.min_eq_left (Nat.sub_le _ _)]
  have e2 : z.take (pat.length - s.length) = (z.take pat.length).take (pat.length - s.length) := by
    rw [List.take_take, Nat.min_eq_left (Nat.sub_le _ _)]
  rw [e1, e2, hz]

/-- `pat` occurs nowhere in `l` (the text really ends at the end of `l`). -/
def noOccurAll (l pat : List Char) : Bool :=
  l.tails.all (fun s => !listStartsWith s pat)

theorem splitFirst_none_of_noOccurAll (pat : List Char) :
    ∀ (l : List Char), noOccurAll l pat = true → splitFirst pat l = none
  | [], h => by
    unfold noOccurAll at h
    rw [show List.tails ([] : List Char) = [[]] from rfl] at h
    simp only [List.all_cons, List.all_nil, Bool.and_true, Bool.not_eq_true'] at h
    rw [splitFirst_nil_eq, if_neg (by simp [h])]
  | c :: l', h => by
    unfold noOccurAll at h
    rw [List.tails_cons, List.all_cons] at h
    simp only [Bool.and_eq_true] at h
    obtain ⟨h1, h2⟩ := h
    simp only [Bool.not_eq_true'] at h1
    rw [splitFirst_cons_of_not_startsWith h1,
      splitFirst_none_of_noOccurAll pat l' h2]
    rfl

theorem startsWith_replicate_a_false {pat : List Char} {p : Char} {ps : List Char}
    (hpat : pat = p :: ps) (hp : ¬ p = 'a') (k : Nat) (z : List Char) (hk : 0 < k) :
    listStartsWith (List.replicate k 'a' ++ z) pat = false := by
  cases k with
  | zero => omega
  | succ k' =>
    rw [List.replicate_succ, hpat, List.cons_append]
    show (('a' == p) && listStartsWith (List.replicate k' 'a' ++ z) ps) = false
    have hbeq : ('a' == p) = false := by
      rw [beq_eq_false_iff_ne]
      intro hne
      exact hp hne.symm
    rw [hbeq, Bool.false_and]

theorem splitFirst_replicate_skip {pat : List Char} {p : Char} {ps : List Char}
    (hpat : pat = p :: ps) (hp : ¬ p = 'a') :
    ∀ (k : Nat) (z : List Char),
      splitFirst pat (List.replicate k 'a' ++ z) =
        (splitFirst pat z).map (fun pr => (List.replicate k 'a' ++ pr.1, pr.2))
  | 0, z => by
    simp only [List.replicate, List.nil_append]
    cases hs : splitFirst pat z with
    | none => rfl
    | some pr => cases pr; rfl
  | k + 1, z => by
    rw [List.replicate_succ, List.cons_append,
      splitFirst_cons_of_not_startsWith
        (by
          have := startsWith_replicate_a_false hpat hp (k + 1) z (by omega)
          rwa [List.replicate_succ, List.cons_append] at this),
      splitFirst_replicate_skip hpat hp k z]
    cases hs : splitFirst pat z with
    | none => rfl
    | some pr => cases pr; rfl

/-- Like `noMidOccur`, but for a concrete prefix followed by a block of `'a'`
characters (at least `pat.length` of them): each non-empty suffix of the prefix
is tested against the continuation model `replicate pat.length 'a'`. -/
def noMidOccurPad (pre pat : List Char) : Bool :=
  pre.tails.all (fun s =>
    s.isEmpty || !listStartsWith (s ++ List.replicate pat.length 'a') pat)

theorem noMidOccurPad_cons {c : Char} {pre pat : List Char}
    (h : noMidOccurPad (c :: pre) pat = true) : noMidOccurPad pre pat = true := by
  unfold noMidOccurPad at h ⊢
  rw [List.tails_cons, List.all_cons] at h
  simp only [Bool.and_eq_true] at h
  exact h.2

theorem noMidOccurPad_head {c : Char} {pre pat : List Char}
    (h : noMidOccurPad (c :: pre) pat = true) :
    listStartsWith ((c :: pre) ++ List.replicate pat.length 'a') pat = false := by
  unfold noMidOccurPad at h
  rw [List.tails_cons, List.all_cons] at h
  simp only [Bool.and_eq_true] at h
  have h1 := h.1
  simp only [List.isEmpty_cons, Bool.false_or, Bool.not_eq_true'] at h1
  exact h1

theorem take_replicate_pad_eq (m n : Nat) (hn : m ≤ n) (z : List Char) :
    (List.replicate n 'a' ++ z).take m = (List.replicate m 'a' : List Char).take m := by
  rw [List.take_append_eq_append_take, List.take_replicate, List.take_replicate,
    Nat.min_eq_left hn, Nat.min_self, List.length_replicate]
  have hz : m - n = 0 := by omega
  rw [hz]
  simp

theorem splitFirst_skip_before_replicate {pat : List Char} (n : Nat)
    (hn : pat.length ≤ n) :
    ∀ (pre : List Char) (z : List Char), noMidOccurPad pre pat = true →
      splitFirst pat (pre ++ (List.replicate n 'a' ++ z)) =
        (splitFirst pat (List.replicate n 'a' ++ z)).map (fun pr => (pre ++ pr.1, pr.2))
  | [], z, _ => by
    simp only [List.nil_append]
    cases hs : splitFirst pat (List.replicate n 'a' ++ z) with
    | none => rfl
    | some pr => cases pr; rfl
  | c :: pre', z, h => by
    have hfalse : listStartsWith ((c :: pre') ++ (List.replicate n 'a' ++ z)) pat = false := by
      have h0 := noMidOccurPad_head h
      apply startsWith_take_shift pat (c :: pre') (List.replicate pat.length 'a')
        (List.replicate n 'a' ++ z) h0
      rw [take_replicate_pad_eq pat.length n hn]
    rw [List.cons_append, splitFirst_cons_of_not_startsWith (by simpa using hfalse),
      splitFirst_skip_before_replicate n hn pre' z (noMidOccurPad_cons h)]
    cases hs : splitFirst pat (List.replicate n 'a' ++ z) with
    | none => rfl
    | some pr => cases pr; rfl

/-! ## Helper lemmas: `trimL` -/

theorem upToLt_eq_takeWhile :
    ∀ (l : List Char),
      (match findIdxChar '<' l with
       | some p => l.take p
       | none => l) = l.takeWhile (fun c => c != '<')
  | [] => rfl
  | c :: l' => by
    by_cases hc : c == '<'
    · simp only [findIdxChar, if_pos hc, List.take, List.takeWhile]
      rw [show (c != '<') = false by simpa using hc]
    · have ih := upToLt_eq_takeWhile l'
      simp only [findIdxChar, if_neg hc, List.takeWhile]
      rw [show (c != '<') = true by simpa using hc]
      cases hf : findIdxChar '<' l' with
      | none =>
        rw [hf] at ih
        simp only [Option.map_none']
        rw [← ih]
      | some p =>
        rw [hf] at ih
        simp only [Option.map_some', List.take]
        rw [← ih]

/-- C8 (corrected): with no `<content>` opening tag the input is returned
unchanged; with an unclosed `<content>` the content is the text from the end
of the opening tag up to (and excluding) the next `<` — or to the end when no
`<` follows — but *stripped of surrounding whitespace* (`content.strip()`);
in particular extraction on `<content>abc<next_preview>xyz` stops exactly
before `<next_preview>`. -/
theorem extract_content_tag_fallbacks :
    (∀ text : String, splitFirst "<content>".data text.data = none →
      extract_content_tag text = text) ∧
    (∀ (text : String) (pre rest : List Char),
      splitFirst "<content>".data text.data = some (pre, rest) →
      splitFirst "</content>".data rest = none →
      extract_content_tag text = String.mk (trimL (rest.takeWhile (fun c => c != '<')))) ∧
    extract_content_tag "<content>abc<next_preview>xyz" = "abc" := by
  refine ⟨?_, ?_, by decide⟩
  · intro text h
    unfold extract_content_tag
    by_cases he : text = ""
    · rw [if_pos he, he]
    · rw [if_neg he, h]
  · intro text pre rest hopen hclose
    have he : ¬ text = "" := by
      intro h
      rw [h] at hopen
      exact Option.noConfusion (by simpa using hopen)
    unfold extract_content_tag
    rw [if_neg he]
    simp only [hopen, hclose]
    rw [← upToLt_eq_takeWhile rest]
    cases hf : findIdxChar '<' rest <;> rfl

/-- C8 counterexample: on `"<content> a <next_preview>x"` the extracted content
is the *stripped* `"a"`, not the raw span `" a "` running from the end of the
opening tag to the next `<`. -/
theorem extract_content_tag_strips_counterexample :
    extract_content_tag "<content> a <next_preview>x" = "a" ∧
    extract_content_tag "<content> a <next_preview>x" ≠ " a " := by
  constructor
  · decide
  · decide

/-- C8 witness. -/
theorem extract_content_tag_fallbacks_witness :
    extract_content_tag "no tags at all" = "no tags at all" ∧
    extract_content_tag "<content>abc" = String.mk (trimL ("abc".data.takeWhile (fun c => c != '<'))) := by
  refine ⟨extract_content_tag_fallbacks.1 "no tags at all" (by decide), ?_⟩
  have h := extract_content_tag_fallbacks.2.1 "<content>abc" [] "abc".data (by decide) (by decide)
  exact h

/-! ## C9: current-length values embedded in the prompts -/

theorem storyLoop_current_length :
    ∀ (rem sc : Nat) (svc : Service) (ctx : StoryContext)
      (meta : List GenerationMetadata) (story : String),
      (storyLoop rem sc svc ctx meta story).ctx.current_length = ctx.current_length
  | 0, _, _, _, _, _ => rfl
  | rem + 1, sc, svc, ctx, meta, story => by
    simp only [storyLoop]
    split
    · rfl
    · split
      · rfl
      · split
        · rfl
        · split
          · rfl
          · exact storyLoop_current_length rem (sc + 1) _ _ _ _

/-- C9 (corrected): the section-generation prompt's `current_length` parameter
is the sum of the generated sections' content lengths, but the plan-review
prompt's length block reports the context's *stored* `current_length` field
(and that field divided by the section count as the average); the field is
initialized to 0 and never written again, so every run ends (and reviews
happen) with `current_length = 0` in the context regardless of the sections
generated. -/
theorem prompt_current_length_sources :
    (∀ (ctx : StoryContext) (n : Nat),
      (get_section_generation_prompt_params ctx n).current_length =
        (ctx.sections.map (fun s => s.content.length)).sum) ∧
    (∀ ctx : StoryContext,
      (plan_review_length_info ctx).current_length = ctx.current_length ∧
      (plan_review_length_info ctx).average_section_length =
        (if ctx.sections.length ≠ 0 then (ctx.current_length : ℚ) / (ctx.sections.length : ℚ)
         else 0)) ∧
    (∀ (ms : Nat) (tl ss : String) (svc : Service),
      (generate_full_story ms tl ss svc).ctx.current_length = 0) := by
  refine ⟨fun ctx n => rfl, fun ctx => ⟨rfl, rfl⟩, ?_⟩
  intro ms tl ss svc
  unfold generate_full_story
  split
  · rfl
  · split
    · rfl
    · exact storyLoop_current_length ms 0 _ _ _ _

/-- C9 counterexample: a context holding one generated section of 5 characters
(and the field `current_length = 0`, as every run leaves it): the
plan-review length block reports 0, not the 5-character sum the
section-generation prompt reports. -/
theorem plan_review_length_ignores_sections_counterexample :
    (plan_review_length_info
        ⟨"s", "short", none, none, [⟨"aaaaa", some ⟨10, [], []⟩, "p", "t"⟩], 0, 0⟩).current_length
      = 0 ∧
    (get_section_generation_prompt_params
        ⟨"s", "short", none, none, [⟨"aaaaa", some ⟨10, [], []⟩, "p", "t"⟩], 0, 0⟩ 2).current_length
      = 5 ∧
    (0 : Nat) ≠ 5 := by
  refine ⟨rfl, by decide, by decide⟩

/-! ## C7: end-to-end run against a scripted service

Concrete well-formed section responses need bodies of at least 1000
characters to pass the quality gate, far beyond what kernel evaluation
handles, so parsing them is evaluated symbolically: the response template
`mkResp n pct` carries an `n`-character body of `'a'`s, and the
`splitFirst` scanning lemmas above compute each tag extraction. -/

theorem extract_tag_content_none_open {text tag : String}
    (h : splitFirst ("<" ++ tag ++ ">").data text.data = none) :
    extract_tag_content text tag = "" := by
  unfold extract_tag_content
  by_cases he : text = ""
  · rw [if_pos he]
  · rw [if_neg he]
    simp only [h]

theorem splitFirst_none_across_content (pat p1 p2 : List Char) (n : Nat)
    (hn : pat.length ≤ n) (q : Char) (qs : List Char) (hq : pat = q :: qs) (hqa : ¬ q = 'a')
    (h1 : noMidOccurPad p1 pat = true) (h2 : noOccurAll p2 pat = true) :
    splitFirst pat (p1 ++ (List.replicate n 'a' ++ p2)) = none := by
  rw [splitFirst_skip_before_replicate n hn p1 p2 h1, splitFirst_replicate_skip hq hqa,
    splitFirst_none_of_noOccurAll pat p2 h2]
  rfl

theorem sumLen_snoc (secs : List SectionData) (d : SectionData) :
    ((secs ++ [d]).map (fun s => s.content.length)).sum
      = (secs.map (fun s => s.content.length)).sum + d.content.length := by
  simp

end NovelGen
